import Mathlib

/-!
Shallow embedding of `TribalMemoryProvider` (src/src/providers/tribalmemory/index.ts).

The provider talks to an HTTP backend through `fetch`.  Every `fetch` (together
with the subsequent `response.json()`) is modelled by an oracle value of type
`FetchOutcome β`: either the promise rejects (network failure / unparsable
body), or a response arrives carrying `ok`, `status` and an already-parsed
body of type `β`.  Methods that issue several requests take an oracle function
`Nat → FetchOutcome β` indexed by the request sequence number.

JavaScript truthiness on optional strings (`config.baseUrl || default`,
`if (result.memory_id)`, …) is embedded by `jsOrStr` / `truthyStr`: an absent
value and the empty string are falsy, every other string is truthy.
-/

namespace TribalMemory

/-- One message of a unified session (src/types/unified, as used by the provider).
Timestamps travel as opaque strings; `none` is an absent timestamp. -/
structure Message where
  role : String
  speaker : Option String
  content : String
  timestamp : Option String
deriving Repr, DecidableEq

/-- A unified session: ordered messages plus metadata (modelled as an
association list of opaque string values). -/
structure UnifiedSession where
  sessionId : String
  messages : List Message
  metadata : List (String × String)
deriving Repr, DecidableEq

/-- Provider configuration handed to the initializer. -/
structure ProviderConfig where
  baseUrl : Option String
  apiKey : Option String
deriving Repr, DecidableEq

/-- Options for `ingest`. -/
structure IngestOptions where
  containerTag : String
  metadata : List (String × String)
deriving Repr, DecidableEq

/-- Result of `ingest`: the provider-assigned document ids. -/
structure IngestResult where
  documentIds : List String
deriving Repr, DecidableEq

/-- Options for `search`.  `limit` and `threshold` are optional JS numbers;
the threshold is modelled as a rational. -/
structure SearchOptions where
  containerTag : String
  limit : Option Int
  threshold : Option Rat
deriving Repr, DecidableEq

/-- Outcome of one `fetch` call (with its `response.json()` step): the promise
rejects, or a response with `ok`/`status` and a parsed body arrives. -/
inductive FetchOutcome (β : Type) where
  | reject
  | response (ok : Bool) (status : Nat) (body : β)
deriving Repr, DecidableEq

/-- Body of `GET /v1/health`. -/
structure HealthBody where
  instance_id : String
deriving Repr, DecidableEq

/-- Body of `POST /v1/remember` (`TribalMemoryStoreResponse`). -/
structure StoreResponse where
  success : Bool
  memory_id : Option String
  duplicate_of : Option String
deriving Repr, DecidableEq

/-- JS truthiness for an optional string: `none` and `""` are falsy. -/
def truthyStr : Option String → Bool
  | none => false
  | some s => s ≠ ""

/-- `opt || default` on optional strings (JS `||` with string truthiness). -/
def jsOrStr (o : Option String) (d : String) : String :=
  match o with
  | none => d
  | some s => if s = "" then d else s

/-- `opt || default` on optional JS numbers modelled as `Int` (0 is falsy). -/
def jsOrInt (o : Option Int) (d : Int) : Int :=
  match o with
  | none => d
  | some n => if n = 0 then d else n

/-- `opt || default` on optional JS numbers modelled as `Rat` (0 is falsy). -/
def jsOrRat (o : Option Rat) (d : Rat) : Rat :=
  match o with
  | none => d
  | some q => if q = 0 then d else q

/-- Mutable fields of the `TribalMemoryProvider` instance. `containerMemories`
is the JS `Map<string, string[]>`, embedded as an association list with at
most-relevant-first lookup. -/
structure ProviderState where
  baseUrl : String
  apiKey : String
  containerMemories : List (String × List String)
deriving Repr, DecidableEq

/-- Field initializers of the class: defaults before `initialize` runs. -/
def initState : ProviderState :=
  { baseUrl := "http://localhost:8765", apiKey := "", containerMemories := [] }

/-- `Map.get` on the association list. -/
def getEntry (m : List (String × List String)) (k : String) : Option (List String) :=
  match m with
  | [] => none
  | (k', v) :: rest => if k' = k then some v else getEntry rest k

/-- `Map.set` on the association list: replace the entry if present, else append. -/
def setEntry (m : List (String × List String)) (k : String) (v : List String) :
    List (String × List String) :=
  match m with
  | [] => [(k, v)]
  | (k', v') :: rest => if k' = k then (k, v) :: rest else (k', v') :: setEntry rest k v

/-- `Map.delete` on the association list. -/
def eraseEntry (m : List (String × List String)) (k : String) :
    List (String × List String) :=
  m.filter (fun p => p.1 ≠ k)

/-- `TribalMemoryProvider.initialize` (lines 61-81).  Sets `baseUrl`/`apiKey`
from the config (JS `||` defaults), then probes `GET /v1/health`; a rejected
fetch or a non-ok response makes the whole call throw (`Failed to connect`),
otherwise the call resolves.  The thrown error is the `ConnectionError` of
the provider contract. -/
def initProvider (st : ProviderState) (config : ProviderConfig)
    (health : FetchOutcome HealthBody) : Except String ProviderState :=
  let st1 : ProviderState :=
    { st with
      baseUrl := jsOrStr config.baseUrl "http://localhost:8765"
      apiKey := jsOrStr config.apiKey "" }
  match health with
  | .reject => .error ("Failed to connect to TribalMemory at " ++ st1.baseUrl)
  | .response ok _ _ =>
    if ok then .ok st1
    else .error ("Failed to connect to TribalMemory at " ++ st1.baseUrl)

/-- Does the embedded call throw? -/
def isConnError (r : Except String ProviderState) : Bool :=
  match r with
  | .error _ => true
  | .ok _ => false

/-- Spec-side condition: the backend is unreachable or the health endpoint
returned a non-success status. -/
def healthFailed (h : FetchOutcome HealthBody) : Bool :=
  match h with
  | .reject => true
  | .response ok _ _ => !ok

/-- The `contextObj` built for one message (lines 94-105).  The spread of
`session.metadata` / `options.metadata` over the fixed keys is kept structured:
the merged metadata entries are carried in `metadata`; `timestamp` is the
field set by `if (message.timestamp) contextObj.timestamp = message.timestamp`
(a truthy check, so an empty-string timestamp is not set), and being the last
assignment it wins over any metadata key of the same name. -/
structure StoreContext where
  sessionId : String
  role : String
  speaker : Option String
  containerTag : String
  metadata : List (String × String)
  timestamp : Option String
deriving Repr, DecidableEq

/-- The JSON body sent to `POST /v1/remember` for one message (lines 107-112). -/
structure StoreBody where
  content : String
  source_type : String
  context : StoreContext
  tags : List String
deriving Repr, DecidableEq

/-- Build the request body for one message of one session. -/
def storeBody (containerTag : String) (optMeta : List (String × String))
    (s : UnifiedSession) (m : Message) : StoreBody :=
  { content := m.content
    source_type := "auto_capture"
    context :=
      { sessionId := s.sessionId
        role := m.role
        speaker := m.speaker
        containerTag := containerTag
        metadata := s.metadata ++ optMeta
        timestamp := match m.timestamp with
          | none => none
          | some t => if t = "" then none else some t }
    tags := [containerTag, "session:" ++ s.sessionId, m.role] }

/-- The body of the per-message `try` block after `fetch` (lines 114-138),
before the surrounding `catch`: a rejected fetch propagates as an exception;
a non-ok response is logged and skipped (`continue`, contributes `none`); on
an ok response the id pushed is `memory_id` when `success && memory_id` is
truthy, else `duplicate_of` when truthy, else nothing. -/
def storeMessageE (o : FetchOutcome StoreResponse) : Except String (Option String) :=
  match o with
  | .reject => .error "fetch rejected"
  | .response ok _ body =>
    if !ok then .ok none
    else if body.success && truthyStr body.memory_id then .ok body.memory_id
    else if truthyStr body.duplicate_of then .ok body.duplicate_of
    else .ok none

/-- The per-message `try { … } catch { logger.warn }` (lines 114-141): a
thrown error is swallowed and the message contributes no id. -/
def storeResultId (o : FetchOutcome StoreResponse) : Option String :=
  match storeMessageE o with
  | .ok v => v
  | .error _ => none

/-- Whether the per-message store attempt failed (fetch rejected, or the
response was not ok). -/
def storeFailed (o : FetchOutcome StoreResponse) : Prop :=
  o = .reject ∨ ∃ s b, o = .response false s b

/-- Whether the failure path logs (`logger.warn` on lines 125-127 and 140). -/
def storeLogged (o : FetchOutcome StoreResponse) : Bool :=
  match o with
  | .reject => true
  | .response ok _ _ => !ok

/-- Inner loop of `ingest` over the messages of one session (lines 92-142).
`i` is the sequence number of the next store request; returns the issued
request bodies, the ids pushed onto `memoryIds`, and the next sequence
number. -/
def ingestMsgs (bk : Nat → FetchOutcome StoreResponse) (tag : String)
    (optMeta : List (String × String)) (s : UnifiedSession) (i : Nat) :
    List Message → List StoreBody × List String × Nat
  | [] => ([], [], i)
  | m :: rest =>
    let body := storeBody tag optMeta s m
    let idOpt := storeResultId (bk i)
    let (reqs, ids, i') := ingestMsgs bk tag optMeta s (i + 1) rest
    (body :: reqs,
     (match idOpt with
      | some id => id :: ids
      | none => ids),
     i')

/-- Outer loop of `ingest` over the sessions (lines 90-143). -/
def ingestSessions (bk : Nat → FetchOutcome StoreResponse) (tag : String)
    (optMeta : List (String × String)) (i : Nat) :
    List UnifiedSession → List StoreBody × List String × Nat
  | [] => ([], [], i)
  | s :: rest =>
    let (reqs1, ids1, i1) := ingestMsgs bk tag optMeta s i s.messages
    let (reqs2, ids2, i2) := ingestSessions bk tag optMeta i1 rest
    (reqs1 ++ reqs2, ids1 ++ ids2, i2)

/-- What one `ingest` call produced: the updated provider state, the returned
`IngestResult`, and the trace of store requests it issued, in order. -/
structure IngestOutcome where
  state : ProviderState
  result : IngestResult
  requests : List StoreBody
deriving Repr, DecidableEq

/-- `TribalMemoryProvider.ingest` (lines 83-155): runs the nested loops, then
appends `memoryIds` to the container's registry entry
(`containerMemories.set(tag, [...existing, ...memoryIds])`) and returns
`{ documentIds: memoryIds }`.  Every await inside the loop sits in the
per-message `try`/`catch`, so the call itself never rejects and is embedded
as a total function. -/
def ingest (st : ProviderState) (sessions : List UnifiedSession)
    (options : IngestOptions) (bk : Nat → FetchOutcome StoreResponse) :
    IngestOutcome :=
  let (reqs, memoryIds, _) :=
    ingestSessions bk options.containerTag options.metadata 0 sessions
  let existing := (getEntry st.containerMemories options.containerTag).getD []
  { state :=
      { st with
        containerMemories :=
          setEntry st.containerMemories options.containerTag (existing ++ memoryIds) }
    result := { documentIds := memoryIds }
    requests := reqs }

/-- Total number of messages across the input sessions. -/
def totalMessages (sessions : List UnifiedSession) : Nat :=
  (sessions.map (fun s => s.messages.length)).sum

/-- One progress notification handed to the `awaitIndexing` callback. -/
structure IndexingProgress where
  completedIds : List String
  failedIds : List String
  total : Nat
deriving Repr, DecidableEq

/-- `TribalMemoryProvider.awaitIndexing` (lines 157-169): indexing is
synchronous, so the call resolves at once; when a callback was supplied
(`onProgress?.(…)`) it fires exactly once.  Embedded as the list of emitted
notifications. -/
def awaitIndexing (result : IngestResult) (_containerTag : String)
    (hasCallback : Bool) : List IndexingProgress :=
  let total := result.documentIds.length
  if hasCallback then
    [{ completedIds := result.documentIds, failedIds := [], total := total }]
  else []

/-- One memory inside a `POST /v1/recall` result (`TribalMemoryRecallResult`).
`context` is the stringified JSON stored at ingest time. -/
structure RecallMemory where
  id : String
  content : String
  created_at : String
  tags : List String
  context : Option String
deriving Repr, DecidableEq

/-- One scored recall result. -/
structure RecallResult where
  memory : RecallMemory
  similarity_score : Rat
  retrieval_method : Option String
deriving Repr, DecidableEq

/-- Body of a `POST /v1/recall` response (`TribalMemoryRecallResponse`). -/
structure RecallResponse where
  results : List RecallResult
  error : Option String
deriving Repr, DecidableEq

/-- The JSON body sent to `POST /v1/recall` (lines 172-177): falsy (`0` or
absent) limit and threshold fall back to 30 and 0.3. -/
structure RecallRequest where
  query : String
  limit : Int
  min_relevance : Rat
  tags : List String
deriving Repr, DecidableEq

/-- Build the recall request from the caller's query and options. -/
def searchRequest (query : String) (options : SearchOptions) : RecallRequest :=
  { query := query
    limit := jsOrInt options.limit 30
    min_relevance := jsOrRat options.threshold (3 / 10)
    tags := [options.containerTag] }

/-- Metadata attached to one returned search result (lines 219-224). -/
structure SearchItemMetadata where
  context : List (String × String)
  tags : List String
  created_at : String
  retrieval_method : Option String
deriving Repr, DecidableEq

/-- One item returned by `search` (lines 215-225). -/
structure SearchItem where
  id : String
  content : String
  score : Rat
  metadata : SearchItemMetadata
deriving Repr, DecidableEq

/-- Mapping of one recall result to a benchmark item (lines 201-226).
`parse` is the external `JSON.parse`; a parse failure (`none`) falls back to
the empty context, as the inner `try`/`catch` does. -/
def toSearchItem (parse : String → Option (List (String × String)))
    (r : RecallResult) : SearchItem :=
  let parsedContext : List (String × String) :=
    match r.memory.context with
    | none => []
    | some c =>
      match parse c with
      | some entries => entries
      | none => []
  { id := r.memory.id
    content := r.memory.content
    score := r.similarity_score
    metadata :=
      { context := parsedContext
        tags := r.memory.tags
        created_at := r.memory.created_at
        retrieval_method := r.retrieval_method } }

/-- The `try` block of `search` (lines 179-226): a rejected fetch propagates;
a non-ok response throws `Search failed`; a truthy `error` field in the body
is logged and yields `[]`; otherwise the results are mapped. -/
def searchTryE (parse : String → Option (List (String × String)))
    (out : FetchOutcome RecallResponse) : Except String (List SearchItem) :=
  match out with
  | .reject => .error "fetch rejected"
  | .response ok status data =>
    if !ok then .error ("Search failed: " ++ toString status)
    else if truthyStr data.error then .ok []
    else .ok (data.results.map (toSearchItem parse))

/-- `TribalMemoryProvider.search` (lines 171-231): the whole `try` body is
wrapped in `catch (error) { logger.error(…); return [] }`, so every thrown
error — the unreachable-transport rejection included — becomes an ordinary
`[]` return.  The `Except` codomain records that the method could in
principle reject; the catch makes it always resolve. -/
def search (parse : String → Option (List (String × String))) (query : String)
    (options : SearchOptions) (out : FetchOutcome RecallResponse) :
    Except String (RecallRequest × List SearchItem) :=
  let body := searchRequest query options
  match searchTryE parse out with
  | .ok items => .ok (body, items)
  | .error _ => .ok (body, [])

/-- Spec-side condition: the recall attempt failed at some layer (transport
rejected, non-ok response, or an error field in the body). -/
def searchFailed (out : FetchOutcome RecallResponse) : Prop :=
  out = .reject
    ∨ (∃ s d, out = FetchOutcome.response false s d)
    ∨ (∃ s d, out = FetchOutcome.response true s d ∧ truthyStr d.error = true)

/-- Outcome of one `DELETE /v1/forget/{id}` call; only `response.ok` is
inspected. -/
inductive DeleteOutcome where
  | reject
  | response (ok : Bool)
deriving Repr, DecidableEq

/-- Loop of `clear` (lines 237-255): issues one delete per tracked id in
order, counts the ok responses, and swallows every thrown error.  Returns the
ids a deletion was issued for and the `deleted` counter. -/
def clearLoop (bk : Nat → DeleteOutcome) (i : Nat) :
    List String → List String × Nat
  | [] => ([], 0)
  | id :: rest =>
    let d : Nat :=
      match bk i with
      | .response true => 1
      | .response false => 0
      | .reject => 0
    let (reqs, dr) := clearLoop bk (i + 1) rest
    (id :: reqs, d + dr)

/-- What one `clear` call produced: the updated state, the ids it issued
deletions for, and the `deleted` counter. -/
structure ClearOutcome where
  state : ProviderState
  requested : List String
  deleted : Nat
deriving Repr, DecidableEq

/-- `TribalMemoryProvider.clear` (lines 233-259): reads the tracked ids for
the tag (`|| []`), best-effort deletes each, then unconditionally removes the
registry entry (`containerMemories.delete(tag)`). -/
def clear (st : ProviderState) (containerTag : String)
    (bk : Nat → DeleteOutcome) : ClearOutcome :=
  let memoryIds := (getEntry st.containerMemories containerTag).getD []
  let (reqs, deleted) := clearLoop bk 0 memoryIds
  { state := { st with containerMemories := eraseEntry st.containerMemories containerTag }
    requested := reqs
    deleted := deleted }

/-- A registry-relevant provider operation, for the trace semantics of
`containerMemories`. -/
inductive Op where
  | ingestOp (sessions : List UnifiedSession) (options : IngestOptions)
      (bk : Nat → FetchOutcome StoreResponse)
  | clearOp (containerTag : String) (bk : Nat → DeleteOutcome)

/-- The container tag an operation acts on. -/
def Op.tag : Op → String
  | .ingestOp _ options _ => options.containerTag
  | .clearOp t _ => t

/-- The document ids an operation's `ingest` returned (`[]` for `clear`). -/
def Op.docIds : Op → List String
  | .ingestOp sessions options bk =>
    (ingestSessions bk options.containerTag options.metadata 0 sessions).2.1
  | .clearOp _ _ => []

/-- Run one operation against the provider state. -/
def stepOp (st : ProviderState) : Op → ProviderState
  | .ingestOp sessions options bk => (ingest st sessions options bk).state
  | .clearOp t bk => (clear st t bk).state

/-- Run a trace of operations. -/
def runOps (st : ProviderState) (ops : List Op) : ProviderState :=
  ops.foldl stepOp st

/-- The registry entry for a tag, read the way the code reads it
(`get(tag) || []`). -/
def entryD (st : ProviderState) (tag : String) : List String :=
  (getEntry st.containerMemories tag).getD []

/-- Spec-side entry: fold the trace, appending each ingest's document ids for
the tag and resetting on each clear of the tag, starting from `acc`. -/
def specEntryAux (tag : String) (acc : List String) : List Op → List String
  | [] => acc
  | op :: rest =>
    if op.tag = tag then
      match op with
      | .ingestOp _ _ _ => specEntryAux tag (acc ++ op.docIds) rest
      | .clearOp _ _ => specEntryAux tag [] rest
    else specEntryAux tag acc rest

/-- Spec-side entry from a fresh provider: the concatenation, in order, of
all document ids returned by ingest calls for the tag since its last clear. -/
def specEntry (tag : String) (ops : List Op) : List String :=
  specEntryAux tag [] ops

/-- Did one delete request succeed (`response.ok`)? -/
def isDeleted (o : DeleteOutcome) : Bool :=
  match o with
  | .response true => true
  | .response false => false
  | .reject => false

/-! ### Association-list lemmas for the `containerMemories` map -/

theorem getEntry_setEntry_self (m : List (String × List String)) (k : String)
    (v : List String) : getEntry (setEntry m k v) k = some v := by
  induction m with
  | nil => simp [setEntry, getEntry]
  | cons p rest ih =>
    by_cases h : p.1 = k
    · simp [setEntry, getEntry, h]
    · simp [setEntry, getEntry, h, ih]

theorem getEntry_setEntry_ne (m : List (String × List String)) (k k' : String)
    (v : List String) (h : k ≠ k') :
    getEntry (setEntry m k v) k' = getEntry m k' := by
  induction m with
  | nil => simp [setEntry, getEntry, h]
  | cons p rest ih =>
    by_cases hp : p.1 = k
    · simp [setEntry, getEntry, hp, h]
    · simp [setEntry, getEntry, hp, ih]

theorem getEntry_eraseEntry_self (m : List (String × List String)) (k : String) :
    getEntry (eraseEntry m k) k = none := by
  induction m with
  | nil => simp [eraseEntry, getEntry]
  | cons p rest ih =>
    by_cases hp : p.1 = k
    · simpa [eraseEntry, List.filter_cons, hp] using ih
    · simpa [eraseEntry, List.filter_cons, hp, getEntry] using ih

theorem getEntry_eraseEntry_ne (m : List (String × List String)) (k k' : String)
    (h : k ≠ k') : getEntry (eraseEntry m k) k' = getEntry m k' := by
  induction m with
  | nil => simp [eraseEntry, getEntry]
  | cons p rest ih =>
    have hk : k' ≠ k := fun e => h e.symm
    by_cases hp : p.1 = k
    · simpa [eraseEntry, List.filter_cons, hp, getEntry, h] using ih
    · by_cases hq : p.1 = k'
      · simp [eraseEntry, List.filter_cons, hp, getEntry, hq, hk]
      · simpa [eraseEntry, List.filter_cons, hp, getEntry, hq, hk] using ih

/-! ### Characterizations of the ingest loops -/

theorem ingestMsgs_spec (bk : Nat → FetchOutcome StoreResponse) (tag : String)
    (optMeta : List (String × String)) (s : UnifiedSession) :
    ∀ (msgs : List Message) (i : Nat),
      ingestMsgs bk tag optMeta s i msgs =
        (msgs.map (storeBody tag optMeta s),
         (List.range' i msgs.length).filterMap (fun j => storeResultId (bk j)),
         i + msgs.length) := by
  intro msgs
  induction msgs with
  | nil => intro i; simp [ingestMsgs]
  | cons m rest ih =>
    intro i
    simp only [ingestMsgs, ih (i + 1), List.map_cons, List.length_cons,
      List.range'_succ, List.filterMap_cons]
    cases h : storeResultId (bk i) with
    | none => simp [h]; omega
    | some id => simp [h]; omega

theorem ingestSessions_spec (bk : Nat → FetchOutcome StoreResponse) (tag : String)
    (optMeta : List (String × String)) :
    ∀ (ss : List UnifiedSession) (i : Nat),
      ingestSessions bk tag optMeta i ss =
        (ss.flatMap (fun s => s.messages.map (storeBody tag optMeta s)),
         (List.range' i (totalMessages ss)).filterMap (fun j => storeResultId (bk j)),
         i + totalMessages ss) := by
  intro ss
  induction ss with
  | nil => intro i; simp [ingestSessions, totalMessages]
  | cons s rest ih =>
    intro i
    have hsplit :
        List.range' i (totalMessages (s :: rest)) =
          List.range' i s.messages.length ++
            List.range' (i + s.messages.length) (totalMessages rest) := by
      rw [List.range'_append_1]
      have htot : totalMessages (s :: rest) =
          totalMessages rest + s.messages.length := by
        simp [totalMessages, Nat.add_comm]
      rw [htot]
    simp only [ingestSessions, ingestMsgs_spec, ih (i + s.messages.length),
      List.flatMap_cons, hsplit, List.filterMap_append, Prod.mk.injEq]
    refine ⟨trivial, trivial, ?_⟩
    simp [totalMessages]
    omega

/-! ### Characterization of the clear loop -/

theorem clearLoop_spec (bk : Nat → DeleteOutcome) :
    ∀ (ids : List String) (i : Nat),
      clearLoop bk i ids =
        (ids, (List.range' i ids.length).countP (fun j => isDeleted (bk j))) := by
  intro ids
  induction ids with
  | nil => intro i; simp [clearLoop]
  | cons id rest ih =>
    intro i
    simp only [clearLoop, ih (i + 1), List.length_cons, List.range'_succ,
      List.countP_cons]
    cases h : bk i with
    | reject => simp [h, isDeleted]
    | response ok =>
      cases ok <;> simp [h, isDeleted, Nat.add_comm]

/-! ### Registry behaviour of one operation -/

theorem entryD_stepOp_ingest (st : ProviderState) (ss : List UnifiedSession)
    (opts : IngestOptions) (bk : Nat → FetchOutcome StoreResponse) :
    entryD (stepOp st (Op.ingestOp ss opts bk)) opts.containerTag =
      entryD st opts.containerTag ++ (Op.ingestOp ss opts bk).docIds := by
  simp only [stepOp, ingest, ingestSessions_spec, Op.docIds, entryD,
    getEntry_setEntry_self]
  rfl

theorem entryD_stepOp_clear (st : ProviderState) (t : String)
    (bk : Nat → DeleteOutcome) :
    entryD (stepOp st (Op.clearOp t bk)) t = [] := by
  simp [stepOp, clear, entryD, getEntry_eraseEntry_self]

theorem getEntry_stepOp_ne (st : ProviderState) (op : Op) (tag' : String)
    (h : op.tag ≠ tag') :
    getEntry (stepOp st op).containerMemories tag' =
      getEntry st.containerMemories tag' := by
  cases op with
  | ingestOp ss opts bk =>
    have h' : opts.containerTag ≠ tag' := h
    simp only [stepOp, ingest, ingestSessions_spec]
    exact getEntry_setEntry_ne _ _ _ _ h'
  | clearOp t bk =>
    exact getEntry_eraseEntry_ne _ _ _ h

theorem entryD_runOps (tag : String) :
    ∀ (ops : List Op) (st : ProviderState),
      entryD (runOps st ops) tag = specEntryAux tag (entryD st tag) ops := by
  intro ops
  induction ops with
  | nil => intro st; rfl
  | cons op rest ih =>
    intro st
    show entryD (runOps (stepOp st op) rest) tag =
      specEntryAux tag (entryD st tag) (op :: rest)
    rw [ih (stepOp st op)]
    cases op with
    | ingestOp ss opts bk =>
      by_cases h : opts.containerTag = tag
      · subst h
        rw [entryD_stepOp_ingest]
        simp [specEntryAux, Op.tag]
      · have hne := getEntry_stepOp_ne st (Op.ingestOp ss opts bk) tag h
        simp [specEntryAux, Op.tag, h, entryD, hne]
    | clearOp t bk =>
      by_cases h : t = tag
      · subst h
        rw [entryD_stepOp_clear]
        simp [specEntryAux, Op.tag]
      · have hne := getEntry_stepOp_ne st (Op.clearOp t bk) tag h
        simp [specEntryAux, Op.tag, h, entryD, hne]

/-! ### Claim theorems -/

/-- C1: for every call to `ingest`, a per-message store failure (non-ok
response or a thrown error while storing one message) is skipped with a log
entry and contributes no entry to the returned `documentIds` — the ids are
exactly the successful stores, in request order — and the call as a whole is
total (every per-message exception is caught inside the loop), so it rejects
only when the backend is unreachable, vacuously. -/
theorem ingest_per_message_failures_nonfatal :
    (∀ (st : ProviderState) (sessions : List UnifiedSession)
        (options : IngestOptions) (bk : Nat → FetchOutcome StoreResponse),
        (ingest st sessions options bk).result.documentIds =
          (List.range (totalMessages sessions)).filterMap
            (fun j => storeResultId (bk j)))
    ∧ (∀ o : FetchOutcome StoreResponse, storeFailed o →
        storeResultId o = none ∧ storeLogged o = true) := by
  constructor
  · intro st ss opts bk
    simp [ingest, ingestSessions_spec, List.range_eq_range']
  · intro o h
    rcases h with h | ⟨s, b, h⟩ <;> subst h <;>
      simp [storeResultId, storeMessageE, storeLogged]

/-- Witness for C1 at the concrete failed outcome `reject`. -/
theorem ingest_per_message_failures_nonfatal_witness :
    storeFailed (FetchOutcome.reject : FetchOutcome StoreResponse) ∧
      storeResultId (FetchOutcome.reject : FetchOutcome StoreResponse) = none ∧
      storeLogged (FetchOutcome.reject : FetchOutcome StoreResponse) = true :=
  ⟨Or.inl rfl,
   (ingest_per_message_failures_nonfatal.2 FetchOutcome.reject (Or.inl rfl)).1,
   (ingest_per_message_failures_nonfatal.2 FetchOutcome.reject (Or.inl rfl)).2⟩

/-- C2, counterexample: when the transport layer itself is unreachable (the
`fetch` promise rejects), `search` does not fail with a `ConnectionError` —
the surrounding catch swallows the rejection and the call resolves with the
empty list. -/
theorem search_reject_returns_value :
    search (fun _ => none) "q" ⟨"t", none, none⟩ FetchOutcome.reject =
      Except.ok (searchRequest "q" ⟨"t", none, none⟩, []) := rfl

/-- C2, amended: for every query and options, `search` always resolves with a
value; on a backend error — and also when the transport layer is unreachable —
it resolves with the empty sequence rather than propagating an error. -/
theorem search_swallows_errors :
    ∀ (parse : String → Option (List (String × String))) (query : String)
      (options : SearchOptions) (out : FetchOutcome RecallResponse),
      (∃ items, search parse query options out =
        Except.ok (searchRequest query options, items))
      ∧ (searchFailed out → search parse query options out =
          Except.ok (searchRequest query options, [])) := by
  intro parse q opts out
  constructor
  · cases out with
    | reject => exact ⟨[], rfl⟩
    | response ok status data =>
      cases ok
      · exact ⟨[], rfl⟩
      · by_cases he : truthyStr data.error
        · exact ⟨[], by simp [search, searchTryE, he]⟩
        · exact ⟨data.results.map (toSearchItem parse),
            by simp [search, searchTryE, he]⟩
  · intro h
    rcases h with h | ⟨s, d, h⟩ | ⟨s, d, h, he⟩
    · subst h; rfl
    · subst h; rfl
    · subst h; simp [search, searchTryE, he]

/-- Witness for the amended C2 at the concrete unreachable outcome. -/
theorem search_swallows_errors_witness :
    searchFailed (FetchOutcome.reject : FetchOutcome RecallResponse) ∧
      search (fun _ => none) "w" ⟨"t2", none, none⟩ FetchOutcome.reject =
        Except.ok (searchRequest "w" ⟨"t2", none, none⟩, []) :=
  ⟨Or.inl rfl,
   (search_swallows_errors (fun _ => none) "w" ⟨"t2", none, none⟩
      FetchOutcome.reject).2 (Or.inl rfl)⟩

/-- C3: for every list of sessions and ingest options, the `documentIds`
returned by `ingest` number at most the total messages across the input
sessions — each message contributes at most one id, whether freshly minted or
a `duplicate_of` id. -/
theorem ingest_documentIds_le_messages :
    ∀ (st : ProviderState) (sessions : List UnifiedSession)
      (options : IngestOptions) (bk : Nat → FetchOutcome StoreResponse),
      (ingest st sessions options bk).result.documentIds.length ≤
        totalMessages sessions := by
  intro st ss opts bk
  simp only [ingest, ingestSessions_spec]
  exact le_trans (List.length_filterMap_le _ _) (by simp)

/-- C4: `clear(containerTag)` issues a deletion for every id ever recorded
for the tag, keeps going past individual failures (the deleted counter counts
exactly the ok responses over the whole list), and always removes the tag's
registry entry. -/
theorem clear_best_effort :
    ∀ (st : ProviderState) (containerTag : String) (bk : Nat → DeleteOutcome),
      (clear st containerTag bk).requested = entryD st containerTag
      ∧ getEntry (clear st containerTag bk).state.containerMemories containerTag
          = none
      ∧ (clear st containerTag bk).deleted =
          (List.range (entryD st containerTag).length).countP
            (fun j => isDeleted (bk j)) := by
  intro st tag bk
  refine ⟨?_, ?_, ?_⟩
  · simp [clear, clearLoop_spec, entryD]
  · simp [clear, getEntry_eraseEntry_self]
  · simp [clear, clearLoop_spec, entryD, List.range_eq_range']

/-- C5: `awaitIndexing` resolves immediately and, when a callback is
supplied, emits exactly one progress notification whose `completedIds` are
the ingest result's `documentIds`, whose `failedIds` are empty, and whose
`total` is the number of document ids. -/
theorem awaitIndexing_single_progress :
    ∀ (result : IngestResult) (containerTag : String),
      awaitIndexing result containerTag true =
        [{ completedIds := result.documentIds, failedIds := [],
           total := result.documentIds.length }] := by
  intro r tag
  rfl

/-- C6: `initialize` throws its connection error exactly when the backend is
unreachable or the health endpoint returns a non-success status, and resolves
otherwise. -/
theorem initialize_conn_error_iff :
    ∀ (st : ProviderState) (config : ProviderConfig)
      (health : FetchOutcome HealthBody),
      isConnError (initProvider st config health) = healthFailed health := by
  intro st c h
  cases h with
  | reject => rfl
  | response ok status body => cases ok <;> rfl

/-- C7: calling `initialize` twice with the same config and the same healthy
backend leaves the provider in the very state the first call produced — the
repeated probe succeeds and no duplicate state is created. -/
theorem initialize_idempotent :
    ∀ (st : ProviderState) (config : ProviderConfig)
      (health : FetchOutcome HealthBody) (s₁ : ProviderState),
      initProvider st config health = Except.ok s₁ →
      initProvider s₁ config health = Except.ok s₁ := by
  intro st c h s₁ hok
  cases h with
  | reject => simp [initProvider] at hok
  | response ok status body =>
    cases ok
    · simp [initProvider] at hok
    · simp only [initProvider, if_pos] at hok ⊢
      have h1 := Except.ok.inj hok
      subst h1
      rfl

/-- Witness for C7 at a concrete config and a healthy probe. -/
theorem initialize_idempotent_witness :
    initProvider initState ⟨some "u", none⟩
        (FetchOutcome.response true 200 ⟨"i"⟩) = Except.ok ⟨"u", "", []⟩ ∧
      initProvider ⟨"u", "", []⟩ ⟨some "u", none⟩
        (FetchOutcome.response true 200 ⟨"i"⟩) = Except.ok ⟨"u", "", []⟩ :=
  ⟨rfl,
   initialize_idempotent initState ⟨some "u", none⟩
     (FetchOutcome.response true 200 ⟨"i"⟩) ⟨"u", "", []⟩ rfl⟩

/-- C8: `ingest` issues the per-message store requests in session order and,
within each session, in message order; a present (truthy) timestamp is passed
into the stored context unchanged. -/
theorem ingest_order_and_timestamps :
    (∀ (st : ProviderState) (sessions : List UnifiedSession)
        (options : IngestOptions) (bk : Nat → FetchOutcome StoreResponse),
        (ingest st sessions options bk).requests =
          sessions.flatMap (fun s =>
            s.messages.map (storeBody options.containerTag options.metadata s)))
    ∧ (∀ (tag : String) (meta : List (String × String)) (s : UnifiedSession)
        (m : Message) (t : String), m.timestamp = some t → t ≠ "" →
        (storeBody tag meta s m).context.timestamp = some t) := by
  constructor
  · intro st ss opts bk
    simp [ingest, ingestSessions_spec]
  · intro tag meta s m t ht hne
    simp [storeBody, ht, hne]

/-- Witness for C8 at a concrete message with a timestamp. -/
theorem ingest_order_and_timestamps_witness :
    (Message.mk "user" none "hi" (some "2024-01-15")).timestamp =
        some "2024-01-15" ∧
      ("2024-01-15" : String) ≠ "" ∧
      (storeBody "t" [] ⟨"s1", [], []⟩
          (Message.mk "user" none "hi" (some "2024-01-15"))).context.timestamp =
        some "2024-01-15" :=
  ⟨rfl, by decide,
   ingest_order_and_timestamps.2 "t" [] ⟨"s1", [], []⟩
     (Message.mk "user" none "hi" (some "2024-01-15")) "2024-01-15" rfl
     (by decide)⟩

/-- C9: a falsy (0 or absent) `limit` becomes the default 30 and a falsy
`threshold` becomes the default minimum relevance 0.3, so no recall request
carries a zero limit or a zero relevance threshold. -/
theorem search_request_defaults :
    ∀ (query : String) (tag : String) (lim : Option Int) (thr : Option Rat),
      (searchRequest query ⟨tag, none, none⟩).limit = 30
      ∧ (searchRequest query ⟨tag, some 0, some 0⟩).limit = 30
      ∧ (searchRequest query ⟨tag, none, none⟩).min_relevance = 3 / 10
      ∧ (searchRequest query ⟨tag, some 0, some 0⟩).min_relevance = 3 / 10
      ∧ (searchRequest query ⟨tag, lim, thr⟩).limit ≠ 0
      ∧ (searchRequest query ⟨tag, lim, thr⟩).min_relevance ≠ 0 := by
  intro q tag lim thr
  refine ⟨rfl, ?_, rfl, ?_, ?_, ?_⟩
  · simp [searchRequest, jsOrInt]
  · simp [searchRequest, jsOrRat]
  · cases lim with
    | none => simp [searchRequest, jsOrInt]
    | some n =>
      by_cases hn : n = 0 <;> simp [searchRequest, jsOrInt, hn]
  · cases thr with
    | none => norm_num [searchRequest, jsOrRat]
    | some q' =>
      by_cases hq : q' = 0
      · norm_num [searchRequest, jsOrRat, hq]
      · simp [searchRequest, jsOrRat, hq]

/-- C10: from a fresh provider, the registry entry of each tag (read as
`get(tag) || []`) is exactly the concatenation, in order, of the document ids
returned by the ingest calls for that tag since that tag's last clear; and
every ingest or clear for one tag leaves the entries of all other tags
untouched. -/
theorem registry_tracks_ingests :
    (∀ (ops : List Op) (tag : String),
        entryD (runOps initState ops) tag = specEntry tag ops)
    ∧ (∀ (st : ProviderState) (op : Op) (tag' : String), op.tag ≠ tag' →
        getEntry (stepOp st op).containerMemories tag' =
          getEntry st.containerMemories tag') := by
  constructor
  · intro ops tag
    rw [entryD_runOps tag ops initState]
    rfl
  · intro st op tag' h
    exact getEntry_stepOp_ne st op tag' h

/-- Witness for C10's frame property at a concrete pair of distinct tags. -/
theorem registry_tracks_ingests_witness :
    Op.tag (Op.clearOp "a" (fun _ => DeleteOutcome.reject)) ≠ "b" ∧
      getEntry (stepOp initState
          (Op.clearOp "a" (fun _ => DeleteOutcome.reject))).containerMemories "b"
        = getEntry initState.containerMemories "b" :=
  ⟨by decide,
   registry_tracks_ingests.2 initState
     (Op.clearOp "a" (fun _ => DeleteOutcome.reject)) "b" (by decide)⟩

end TribalMemory
